import Mathlib

/-! # ros_stairsdetection: the staircase geometry engine

A shallow embedding of `transform_helper.cpp` and `ros_context.cpp`.

Conventions of the embedding:

* `pcl::PointXYZ`, `geometry_msgs::Point` and `geometry_msgs::Vector3` are library types
  whose declarations are not part of the repository.  All three are modelled by one
  record `Point` whose coordinates are values of type `FP`: a NaN, an infinity or a finite
  rational.  The coordinates of a `geometry_msgs::Point` or `Vector3` are `double` values,
  those of a `pcl::PointXYZ` are `float` values (`Point.IsPCL`); every `float` value is a
  `double` value, so widening changes nothing.
* The operations `+`, `*` and `-` on `FP` are exact.  Where the source computes in a
  format or stores into a narrower one, the result passes through `roundDouble` or
  `roundFloat` (round to nearest, ties to even, overflow to infinity).  The product of a
  value with `-1.f` is exact in every format, so it carries no rounding.
* A C++ function that writes through a reference parameter returns the new value of that
  parameter.
* `std::vector` is a `List`; `push_back` appends at the end; `at` is bounds checked and
  raises `std::out_of_range`, which is the `Except.error` result here.
* Loop counters and sizes are natural numbers (a vector is assumed to hold fewer than
  `2 ^ 32` elements, so the `unsigned int` counter of the riser loop never wraps).
* Logging (`ROS_INFO`, `ROS_WARN`, `ROS_ERROR`) has no effect on the modelled state.
-/

namespace StairsDetection

/-! ## Floating-point values -/

/-- A datum of an IEEE 754 binary format, as a value: not-a-number, an infinity, or a
finite number.  The sign of zero and the payload of a NaN are not represented. -/
inductive FP where
  | nan
  | inf (negative : Bool)
  | finite (q : ℚ)
deriving DecidableEq, Repr

namespace FP

instance instOfNat (n : Nat) : OfNat FP n := ⟨finite (OfNat.ofNat n)⟩

instance instNatCast : NatCast FP := ⟨fun n => finite n⟩

instance instOfScientific : OfScientific FP :=
  ⟨fun m s e => finite (OfScientific.ofScientific m s e)⟩

/-- Negation: exact in every format. -/
def neg : FP → FP
  | nan => nan
  | inf negative => inf (!negative)
  | finite q => finite (-q)

instance instNeg : Neg FP := ⟨neg⟩

/-- The sum before rounding. -/
def add : FP → FP → FP
  | finite a, finite b => finite (a + b)
  | finite _, inf negative => inf negative
  | inf negative, finite _ => inf negative
  | inf negative, inf negative2 => if negative = negative2 then inf negative else nan
  | _, _ => nan

instance instAdd : Add FP := ⟨add⟩

/-- The product before rounding. -/
def mul : FP → FP → FP
  | finite a, finite b => finite (a * b)
  | finite a, inf negative => if a = 0 then nan else inf (negative != decide (a < 0))
  | inf negative, finite b => if b = 0 then nan else inf (negative != decide (b < 0))
  | inf negative, inf negative2 => inf (negative != negative2)
  | _, _ => nan

instance instMul : Mul FP := ⟨mul⟩

/-- The comparison `a <= b` of C++: false as soon as one side is a NaN. -/
def le : FP → FP → Prop
  | finite a, finite b => a ≤ b
  | finite _, inf negative => negative = false
  | inf negative, finite _ => negative = true
  | inf negative, inf negative2 => negative = true ∨ negative2 = false
  | _, _ => False

instance instLE : LE FP := ⟨le⟩

instance decidableLE (a b : FP) : Decidable (a ≤ b) := by
  cases a <;> cases b <;> simp only [LE.le, le] <;> infer_instance

end FP

/-- The parameters of a binary format: `prec` significand bits, least positive value
`2 ^ emin`, and overflow threshold `2 ^ emax`. -/
structure Format where
  prec : Nat
  emin : Int
  emax : Int
deriving DecidableEq, Repr

/-- The format of `float`. -/
def binary32 : Format := ⟨24, -149, 128⟩

/-- The format of `double`. -/
def binary64 : Format := ⟨53, -1074, 1024⟩

/-- The rational `m * 2 ^ e`. -/
def scale2 (m : Nat) (e : Int) : ℚ :=
  if 0 ≤ e then ((m * 2 ^ e.toNat : Nat) : ℚ) else (m : ℚ) / ((2 ^ (-e).toNat : Nat) : ℚ)

/-- The fraction `(n / d) / 2 ^ e` as a pair numerator, denominator. -/
def scaledFraction (n d : Nat) (e : Int) : Nat × Nat :=
  if 0 ≤ e then (n, d * 2 ^ e.toNat) else (n * 2 ^ (-e).toNat, d)

/-- The number of binary digits of `n`, counted with at most `fuel` halvings. -/
def bitLengthAux : Nat → Nat → Nat
  | 0, _ => 0
  | fuel + 1, n => if n = 0 then 0 else bitLengthAux fuel (n / 2) + 1

/-- The number of binary digits of `n`: `2 ^ (bitLength n - 1) ≤ n < 2 ^ bitLength n` for
positive `n`. -/
def bitLength (n : Nat) : Nat := bitLengthAux n n

/-- The integer `⌊log₂ (n / d)⌋` for positive `n` and `d`: the difference `k` of the digit
counts when `2 ^ k ≤ n / d`, and `k - 1` otherwise. -/
def floorLog2 (n d : Nat) : Int :=
  let k : Int := (bitLength n : Int) - (bitLength d : Int)
  if (scaledFraction n d k).2 ≤ (scaledFraction n d k).1 then k else k - 1

/-- The exponent of the unit in the last place of `n / d` in the format. -/
def ulpExponent (fmt : Format) (n d : Nat) : Int :=
  max (floorLog2 n d - ((fmt.prec : Int) - 1)) fmt.emin

/-- The integer nearest to `a / b`, the even one of the two when `a / b` is halfway. -/
def roundHalfEven (a b : Nat) : Nat :=
  let quotient := a / b
  let remainder := a % b
  if 2 * remainder < b then quotient
  else if b < 2 * remainder then quotient + 1
  else if quotient % 2 = 0 then quotient else quotient + 1

/-- The magnitude `n / d`, `n` and `d` positive, rounded to the format: the nearest
multiple of the unit in the last place, ties to even; `none` on overflow. -/
def roundMagnitude (fmt : Format) (n d : Nat) : Option ℚ :=
  let e := ulpExponent fmt n d
  let fraction := scaledFraction n d e
  let rounded := scale2 (roundHalfEven fraction.1 fraction.2) e
  if scale2 1 fmt.emax ≤ rounded then none else some rounded

/-- Rounding to a format, round to nearest, ties to even: what storing a value in a variable
of the format, or an arithmetic operation of the format, does to the exact result. -/
def roundTo (fmt : Format) : FP → FP
  | FP.nan => FP.nan
  | FP.inf negative => FP.inf negative
  | FP.finite q =>
    if q = 0 then FP.finite 0
    else
      match roundMagnitude fmt q.num.natAbs q.den with
      | none => FP.inf (decide (q < 0))
      | some r => FP.finite (if q < 0 then -r else r)

/-- A value is a datum of the format: NaN, an infinity, zero, or a finite number below the
overflow threshold that is a whole multiple of its unit in the last place. -/
def isValueOf (fmt : Format) : FP → Prop
  | FP.nan => True
  | FP.inf _ => True
  | FP.finite q =>
    q = 0 ∨
    ((scaledFraction q.num.natAbs q.den (ulpExponent fmt q.num.natAbs q.den)).1 %
        (scaledFraction q.num.natAbs q.den (ulpExponent fmt q.num.natAbs q.den)).2 = 0 ∧
      |q| < scale2 1 fmt.emax)

instance isValueOfDecidable (fmt : Format) (v : FP) : Decidable (isValueOf fmt v) := by
  cases v <;> simp only [isValueOf] <;> infer_instance

/-- Storing a value in a `float`. -/
def roundFloat (v : FP) : FP := roundTo binary32 v

/-- Storing a value in a `double`, or the rounding of one `double` operation. -/
def roundDouble (v : FP) : FP := roundTo binary64 v

/-! ## Data model -/

/-- A 3D point with fields `x`, `y`, `z`. -/
structure Point where
  x : FP
  y : FP
  z : FP
deriving DecidableEq, Repr

/-- The point can be held in a `pcl::PointXYZ`: its coordinates are `float` values. -/
def Point.IsPCL (p : Point) : Prop :=
  isValueOf binary32 p.x ∧ isValueOf binary32 p.y ∧ isValueOf binary32 p.z

instance Point.isPCLDecidable (p : Point) : Decidable p.IsPCL := by
  unfold Point.IsPCL
  infer_instance

/-- The point can be held in a `geometry_msgs::Point`: its coordinates are `double`
values. -/
def Point.IsROS (p : Point) : Prop :=
  isValueOf binary64 p.x ∧ isValueOf binary64 p.y ∧ isValueOf binary64 p.z

instance Point.isROSDecidable (p : Point) : Decidable p.IsROS := by
  unfold Point.IsROS
  infer_instance

/-- The class `Plane` (one detected step): the two corners of its bounding box, read with
`getMin`, `getMax` and written together with `setMinMax`. -/
structure Plane where
  min : Point
  max : Point
deriving DecidableEq, Repr

namespace Plane

def getMin (plane : Plane) : Point := plane.min

def getMax (plane : Plane) : Point := plane.max

def setMinMax (_plane : Plane) (min max : Point) : Plane := ⟨min, max⟩

end Plane

/-- The class `Stairway`: the ordered steps of one staircase, reached with `getSteps`. -/
structure Stairway where
  steps : List Plane
deriving DecidableEq, Repr

namespace Stairway

def getSteps (stairway : Stairway) : List Plane := stairway.steps

end Stairway

/-- The result of `tf2_ros::Buffer::lookupTransform` as far as the program reads it: the
translation of the stamped transform. -/
structure TransformStamped where
  translation : Point
deriving DecidableEq, Repr

/-- The frame lookup buffer: `lookupTransform target source` at time `ros::Time(0)` either
gives a transform or raises a `tf2::TransformException` (carried as its message). -/
structure Buffer where
  lookupTransform : String → String → Except String TransformStamped

/-- The class `TransformHelper`: three frame names and the pointer to the lookup buffer
(`none` is the NULL pointer). -/
structure TransformHelper where
  m_cameraFrameSetting : String
  m_robotFrameSetting : String
  m_worldFrameSetting : String
  m_tfBuffer : Option Buffer

/-- The exception `std::out_of_range` raised by `std::vector::at`. -/
def outOfRange : String := "std::out_of_range"

/-- The bounds checked access `v.at(i)` of `std::vector`. -/
def vectorAt {α : Type} (v : List α) (i : Nat) : Except String α :=
  match v[i]? with
  | some a => Except.ok a
  | none => Except.error outOfRange

/-- The call `v.push_back(a)` of `std::vector`. -/
def pushBack {α : Type} (v : List α) (a : α) : List α := v ++ [a]

/-! ## transform_helper.cpp -/

namespace TransformHelper

/-- `TransformHelper::transform`: the returned flag and the point after the call. -/
def transform (th : TransformHelper) (point : Point) (target_frame source_frame : String) :
    Bool × Point :=
  match th.m_tfBuffer with
  | none => (false, point)
  | some tfBuffer =>
    match tfBuffer.lookupTransform target_frame source_frame with
    | Except.error _ => (false, point)
    | Except.ok ts =>
      (true, { x := roundDouble (point.x + ts.translation.x)
               y := roundDouble (point.y + ts.translation.y)
               z := roundDouble (point.z + ts.translation.z) })

/-- `TransformHelper::transformPCLPointToROSPoint`: the value written to `output`.  The
`float` coordinates of `input` are widened to `double`, which changes no value. -/
def transformPCLPointToROSPoint (input : Point) : Point :=
  { x := input.z
    y := input.x * (-1)
    z := input.y * (-1) }

/-- `TransformHelper::transformROSPointToPCLPoint`: the value written to `output`.  The
`double` results are stored in the `float` fields of `output`. -/
def transformROSPointToPCLPoint (input : Point) : Point :=
  { x := roundFloat (input.y * (-1))
    y := roundFloat (input.z * (-1))
    z := roundFloat input.x }

/-- `TransformHelper::buildStepFromAABB`: the vector `points` after the four `push_back`
calls. -/
def buildStepFromAABB (plane : Plane) (points : List Point) : List Point :=
  let points := pushBack points plane.getMin
  let points := pushBack points ⟨plane.getMin.x, plane.getMax.y, plane.getMin.z⟩
  let points := pushBack points plane.getMax
  pushBack points ⟨plane.getMax.x, plane.getMin.y, plane.getMax.z⟩

/-- The effect of one call of the overload `transformToWorldCoordinates(pcl::PointXYZ&)`:
the flag it returns and the point it leaves.  The overload is declared in
`transform_helper.hpp`, which is not among the sources, so its effect is a parameter of the
slab overload below; the lookup buffer is refreshed between calls, so each of the two calls
has an effect of its own. -/
abbrev PointConversion := Point → Bool × Point

/-- `TransformHelper::transformToWorldCoordinates(Plane&)`: the returned flag and the plane
after the call.  `convertMin` and `convertMax` are the effects of the two calls of the
per-point overload, whose returned flags the function does not read. -/
def transformToWorldCoordinates (convertMin convertMax : PointConversion) (plane : Plane) :
    Bool × Plane :=
  let min := plane.getMin
  let max := plane.getMax
  let min := (convertMin min).2
  let max := (convertMax max).2
  (true, plane.setMinMax min max)

end TransformHelper

open TransformHelper

/-! ## ros_context.cpp -/

/-- The message `std_msgs::Header` as far as the program writes it. -/
structure Header where
  frame_id : String
  stamp : Nat
deriving DecidableEq, Repr

/-- The message `std_msgs::ColorRGBA`. -/
structure ColorRGBA where
  r : ℚ
  g : ℚ
  b : ℚ
  a : ℚ
deriving DecidableEq, Repr

/-- The values of `visualization_msgs::Marker::type` (`ARROW` is the value of a freshly
constructed marker). -/
inductive MarkerType where
  | ARROW
  | LINE_LIST
deriving DecidableEq, Repr

/-- The values of `visualization_msgs::Marker::action`. -/
inductive MarkerAction where
  | ADD
  | DELETE
deriving DecidableEq, Repr

/-- The message `visualization_msgs::Marker` as far as the program writes it. -/
structure Marker where
  header : Header
  ns : String
  id : Int
  type : MarkerType
  action : MarkerAction
  scale : Point
  color : ColorRGBA
  lifetime : Nat
  points : List Point
deriving DecidableEq, Repr

/-- A freshly constructed `visualization_msgs::Marker`: every field is zero or empty. -/
def Marker.empty : Marker :=
  { header := ⟨"", 0⟩
    ns := ""
    id := 0
    type := MarkerType.ARROW
    action := MarkerAction.ADD
    scale := ⟨0, 0, 0⟩
    color := ⟨0, 0, 0, 0⟩
    lifetime := 0
    points := [] }

/-- The message `visualization_msgs::MarkerArray`. -/
structure MarkerArray where
  markers : List Marker
deriving DecidableEq, Repr

/-- The array `float color[3]` handed to the marker builders. -/
structure Color3 where
  c0 : ℚ
  c1 : ℚ
  c2 : ℚ
deriving DecidableEq, Repr

/-- The class `ROSContext` as far as the marker builders and publishers read it. -/
structure ROSContext where
  m_publishStepsSetting : Bool
  m_publishStairsSetting : Bool
  m_cameraFrameSetting : String
  m_robotFrameSetting : String
  m_worldFrameSetting : String
  m_namespaceSetting : String
  m_th : TransformHelper

namespace ROSContext

/-- The eight `marker.points.push_back` calls at the end of one iteration of the loop of
`buildRosMarkerSteps`. -/
def pushOutline (marker : Marker) (p1 p2 p3 p4 : Point) : Marker :=
  let points := pushBack marker.points p1
  let points := pushBack points p2
  let points := pushBack points p2
  let points := pushBack points p3
  let points := pushBack points p3
  let points := pushBack points p4
  let points := pushBack points p4
  let points := pushBack points p1
  { marker with points := points }

/-- One iteration of the loop over `planes` in `buildRosMarkerSteps`. -/
def stepsLoopBody (marker : Marker) (plane : Plane) : Except String Marker := do
  let points := buildStepFromAABB plane []
  let p1 := transformPCLPointToROSPoint (← vectorAt points 0)
  let p2 := transformPCLPointToROSPoint (← vectorAt points 1)
  let p3 := transformPCLPointToROSPoint (← vectorAt points 2)
  let p4 := transformPCLPointToROSPoint (← vectorAt points 3)
  pure (pushOutline marker p1 p2 p3 p4)

/-- `ROSContext::buildRosMarkerSteps`: the marker after the call, or the exception raised.
`now` is the reading of `ros::Time::now()`. -/
def buildRosMarkerSteps (ctx : ROSContext) (now : Nat) (marker : Marker) (planes : List Plane)
    (color : Color3) : Except String Marker :=
  let marker : Marker :=
    { marker with
      header := ⟨ctx.m_cameraFrameSetting, now⟩
      ns := ctx.m_namespaceSetting
      id := 0
      lifetime := 0
      type := MarkerType.LINE_LIST
      action := MarkerAction.ADD
      scale := { marker.scale with x := roundFloat 0.05 }
      color := ⟨color.c0, color.c1, color.c2, 1⟩ }
  planes.foldlM stepsLoopBody marker

/-- One iteration of the riser loop of `buildROSMarkerStairs`, for the counter `i` (the loop
starts at `1`, so `i - 1` never passes below zero). -/
def risersLoopBody (steps : List Plane) (i : Nat) (marker : Marker) : Except String Marker := do
  let pointsCur := buildStepFromAABB (← vectorAt steps i) []
  let pc1 := transformPCLPointToROSPoint (← vectorAt pointsCur 0)
  let _pc2 := transformPCLPointToROSPoint (← vectorAt pointsCur 1)
  let _pc3 := transformPCLPointToROSPoint (← vectorAt pointsCur 2)
  let pc4 := transformPCLPointToROSPoint (← vectorAt pointsCur 3)
  let pointsBefore := buildStepFromAABB (← vectorAt steps (i - 1)) []
  let _pb1 := transformPCLPointToROSPoint (← vectorAt pointsBefore 0)
  let pb2 := transformPCLPointToROSPoint (← vectorAt pointsBefore 1)
  let pb3 := transformPCLPointToROSPoint (← vectorAt pointsBefore 2)
  let _pb4 := transformPCLPointToROSPoint (← vectorAt pointsBefore 3)
  let points := pushBack marker.points pc1
  let points := pushBack points pb2
  let points := pushBack points pc4
  let points := pushBack points pb3
  pure { marker with points := points }

/-- The riser loop `for (unsigned int i = ...; i < steps.size(); i++)` of
`buildROSMarkerStairs`, entered with the counter at `i`. -/
def risersLoop (steps : List Plane) (i : Nat) (marker : Marker) : Except String Marker :=
  if i < steps.length then
    match risersLoopBody steps i marker with
    | Except.error e => Except.error e
    | Except.ok marker => risersLoop steps (i + 1) marker
  else
    Except.ok marker
termination_by steps.length - i

/-- `ROSContext::buildROSMarkerStairs`: the marker after the call, or the exception
raised. -/
def buildROSMarkerStairs (ctx : ROSContext) (now : Nat) (marker : Marker) (stairway : Stairway)
    (color : Color3) : Except String Marker := do
  let marker ← buildRosMarkerSteps ctx now marker stairway.getSteps color
  if stairway.getSteps.length > 0 then
    risersLoop stairway.getSteps 1 marker
  else
    pure marker

/-- One iteration of the loop over the staircases in `publishStairs`. -/
def publishStairsLoopBody (ctx : ROSContext) (now : Nat) (markerArray : MarkerArray)
    (it : Stairway) : Except String MarkerArray := do
  let marker := Marker.empty
  let color : Color3 := ⟨0, 1, 0⟩
  let marker ← buildROSMarkerStairs ctx now marker it color
  pure { markerArray with markers := pushBack markerArray.markers marker }

/-- `ROSContext::publishStairs`: the message handed to `m_pubStairs.publish`, `none` when
nothing is published, or the exception raised.  The clock reads `now` during the call. -/
def publishStairs (ctx : ROSContext) (now : Nat) (stairway : List Stairway) :
    Except String (Option MarkerArray) :=
  if ctx.m_publishStairsSetting then do
    let markerArray : MarkerArray := ⟨[]⟩
    let markerArray ← stairway.foldlM (publishStairsLoopBody ctx now) markerArray
    pure (some markerArray)
  else
    pure none

/-- `ROSContext::publishSteps`: the message handed to `m_pubSteps.publish`, `none` when
nothing is published, or the exception raised.  The clock reads `now` during the call. -/
def publishSteps (ctx : ROSContext) (now : Nat) (planes : List Plane) :
    Except String (Option MarkerArray) := do
  let markerArray : MarkerArray := ⟨[]⟩
  let marker := Marker.empty
  let color : Color3 := ⟨0, 0, 1⟩
  let marker ← buildRosMarkerSteps ctx now marker planes color
  let markerArray := { markerArray with markers := pushBack markerArray.markers marker }
  pure (some markerArray)

end ROSContext

open ROSContext

/-! ## The specification's geometry vocabulary

These definitions follow the words of the specification (sections 4.1, 4.3 and 4.5); the
theorems below compare them with the functions embedded from the source. -/

namespace Spec

/-- The four corners `[p1, p2, p3, p4]` of a slab's front face. -/
structure Corners where
  p1 : Point
  p2 : Point
  p3 : Point
  p4 : Point
deriving DecidableEq, Repr

/-- The corners as the list `[p1, p2, p3, p4]`. -/
def Corners.toList (c : Corners) : List Point := [c.p1, c.p2, c.p3, c.p4]

/-- Apply a point map to each of the four corners. -/
def Corners.map (f : Point → Point) (c : Corners) : Corners :=
  ⟨f c.p1, f c.p2, f c.p3, f c.p4⟩

/-- `toDisplay(p) = (p.z, -p.x, -p.y)`. -/
def toDisplay (p : Point) : Point := ⟨p.z, -p.x, -p.y⟩

/-- `toSensor(p) = (-p.y, -p.z, p.x)`. -/
def toSensor (p : Point) : Point := ⟨-p.y, -p.z, p.x⟩

/-- `cornersOf(slab)`: `p1 = min`, `p2 = (min.x, max.y, min.z)`, `p3 = max`,
`p4 = (max.x, min.y, max.z)`. -/
def cornersOf (slab : Plane) : Corners :=
  ⟨slab.min, ⟨slab.min.x, slab.max.y, slab.min.z⟩, slab.max,
    ⟨slab.max.x, slab.min.y, slab.max.z⟩⟩

/-- The display-converted corners of a slab: `cornersOf`, each corner mapped through
`toDisplay`. -/
def displayCorners (slab : Plane) : Corners := (cornersOf slab).map toDisplay

/-- `outlineEdges(corners)`: the eight points `p1,p2, p2,p3, p3,p4, p4,p1`. -/
def outlineEdges (c : Corners) : List Point :=
  [c.p1, c.p2, c.p2, c.p3, c.p3, c.p4, c.p4, c.p1]

/-- `riserEdges(lower, upper)`: the four points `uc1, lc2, uc4, lc3`. -/
def riserEdges (lower upper : Corners) : List Point :=
  [upper.p1, lower.p2, upper.p4, lower.p3]

/-- The riser points of a sequence of slabs: `riserEdges` of the display-converted corners
of every adjacent pair `(slabs[i-1], slabs[i])`, `i ≥ 1`, in increasing order of `i`. -/
def riserPoints (slabs : List Plane) : List Point :=
  (List.zipWith (fun lower upper => riserEdges (displayCorners lower) (displayCorners upper))
    slabs slabs.tail).flatten

/-- `buildStepOutlines(slabs)`: the outline of every slab in input order, concatenated. -/
def buildStepOutlines (slabs : List Plane) : List Point :=
  (slabs.map (fun slab => outlineEdges (displayCorners slab))).flatten

/-- `buildStaircaseWireframe(staircase)`: the outlines of all slabs, then the risers of all
adjacent pairs. -/
def buildStaircaseWireframe (slabs : List Plane) : List Point :=
  buildStepOutlines slabs ++ riserPoints slabs

/-- A block of eight points is a closed loop of four segments: each segment ends where the
next one starts, and the last one ends where the first one starts. -/
def closedLoop : List Point → Prop
  | [a0, a1, a2, a3, a4, a5, a6, a7] => a1 = a2 ∧ a3 = a4 ∧ a5 = a6 ∧ a7 = a0
  | _ => False

instance closedLoopDecidable (block : List Point) : Decidable (closedLoop block) := by
  unfold closedLoop
  split <;> infer_instance

end Spec

/-! ## The staircase registry (specification, section 4.4)

The service callbacks that read and write the registry (`exportStairs`, `importStairs`,
`clearStairs`) are handed to `ROSContext::init` as function pointers; their definitions
are not among the sources, so the registry operations follow the specification. -/

/-- Modelled from the spec: the `StaircaseRegistry`, process-wide state holding
`stairs: sequence of Staircase`; the callbacks operating on it are defined outside the
sources. -/
structure StaircaseRegistry where
  stairs : List Stairway
deriving DecidableEq, Repr

namespace StaircaseRegistry

/-- Modelled from the spec: `replaceAll(staircases)`, missing from the sources, discards the
current collection and installs the given sequence. -/
def replaceAll (_registry : StaircaseRegistry) (staircases : List Stairway) :
    StaircaseRegistry :=
  ⟨staircases⟩

/-- Modelled from the spec: `snapshot()`, missing from the sources, returns a copy of the
current collection. -/
def snapshot (registry : StaircaseRegistry) : List Stairway := registry.stairs

/-- Modelled from the spec: `clear()`, missing from the sources, empties the collection. -/
def clear (_registry : StaircaseRegistry) : StaircaseRegistry := ⟨[]⟩

/-- Modelled from the spec: `append(staircase)`, missing from the sources, adds one newly
detected staircase at the end. -/
def append (registry : StaircaseRegistry) (staircase : Stairway) : StaircaseRegistry :=
  ⟨registry.stairs ++ [staircase]⟩

end StaircaseRegistry

/-- The slab invariant of the specification: `min.x ≤ max.x`, `min.y ≤ max.y`,
`min.z ≤ max.z`. -/
def Spec.slabInvariant (slab : Plane) : Prop :=
  slab.min.x ≤ slab.max.x ∧ slab.min.y ≤ slab.max.y ∧ slab.min.z ≤ slab.max.z

instance Spec.slabInvariantDecidable (slab : Plane) : Decidable (Spec.slabInvariant slab) := by
  unfold Spec.slabInvariant
  infer_instance

/-! ## Sample inputs -/

/-- A per-point conversion whose frame lookup fails: it reports failure and leaves the
point as it is. -/
def conversionFails : PointConversion := fun p => (false, p)

/-- A per-point conversion whose frame lookup succeeds with translation `t`: it reports
success and leaves the point moved by `t`. -/
def conversionShifts (t : Point) : PointConversion :=
  fun p => (true, ⟨p.x + t.x, p.y + t.y, p.z + t.z⟩)

/-- The unit slab `(0,0,0)-(1,1,1)`. -/
def unitSlab : Plane := ⟨⟨0, 0, 0⟩, ⟨1, 1, 1⟩⟩

/-- A live lookup buffer that resolves the pair `("world", "camera")` to the translation
`(1, 2, 3)` and no other pair. -/
def sampleBuffer : Buffer :=
  { lookupTransform := fun target source =>
      if target = "world" ∧ source = "camera" then Except.ok ⟨⟨1, 2, 3⟩⟩
      else Except.error "frame lookup failed" }

/-- A context with both channels enabled and the lookup buffer `sampleBuffer`. -/
def sampleContext : ROSContext :=
  { m_publishStepsSetting := true
    m_publishStairsSetting := true
    m_cameraFrameSetting := "camera"
    m_robotFrameSetting := "robot"
    m_worldFrameSetting := "world"
    m_namespaceSetting := "stairs"
    m_th :=
      { m_cameraFrameSetting := "camera"
        m_robotFrameSetting := "robot"
        m_worldFrameSetting := "world"
        m_tfBuffer := some sampleBuffer } }

/-- The context `sampleContext` with both publish flags switched off. -/
def mutedContext : ROSContext :=
  { sampleContext with m_publishStepsSetting := false, m_publishStairsSetting := false }

/-- The staircase of the end-to-end scenario: the slabs `(0,0,0)-(1,1,1)` and
`(0,0,1)-(1,1,2)`. -/
def twoSlabStairway : Stairway :=
  ⟨[⟨⟨0, 0, 0⟩, ⟨1, 1, 1⟩⟩, ⟨⟨0, 0, 1⟩, ⟨1, 1, 2⟩⟩]⟩

/-- The color that `publishStairs` hands to the builder. -/
def stairsColor : Color3 := ⟨0, 1, 0⟩

/-- The color that `publishSteps` hands to the builder. -/
def stepsColor : Color3 := ⟨0, 0, 1⟩

/-! ## Auxiliary lemmas -/

namespace FP

theorem ofNat_eq (n : Nat) : (OfNat.ofNat n : FP) = finite (OfNat.ofNat n) := rfl

@[simp] theorem neg_finite (q : ℚ) : -(finite q) = finite (-q) := rfl

@[simp] theorem neg_inf (negative : Bool) : -(inf negative) = inf (!negative) := rfl

@[simp] theorem neg_nan : -nan = nan := rfl

@[simp] theorem finite_add_finite (a b : ℚ) : finite a + finite b = finite (a + b) := rfl

@[simp] theorem neg_neg (x : FP) : -(-x) = x := by
  cases x <;> simp

@[simp] theorem mul_neg_one (x : FP) : x * (-1) = -x := by
  cases x with
  | nan => rfl
  | inf negative =>
    show mul (inf negative) (finite (-1)) = inf (!negative)
    cases negative <;> decide
  | finite q =>
    show finite (q * (-1)) = finite (-q)
    simp

@[simp] theorem mul_finite_neg_one (x : FP) : x * finite (-1) = -x := mul_neg_one x

end FP

theorem roundHalfEven_of_dvd (a b : Nat) (hb : 0 < b) (h : a % b = 0) :
    roundHalfEven a b = a / b := by
  simp [roundHalfEven, h, hb]

theorem scale2_scaledFraction (n d : Nat) (e : Int) (hd : 0 < d)
    (h : (scaledFraction n d e).1 % (scaledFraction n d e).2 = 0) :
    scale2 ((scaledFraction n d e).1 / (scaledFraction n d e).2) e = (n : ℚ) / d := by
  have hd0 : (d : ℚ) ≠ 0 := by exact_mod_cast hd.ne'
  unfold scaledFraction at h ⊢
  unfold scale2
  split_ifs with he
  · simp only [if_pos he] at h
    obtain ⟨c, hc⟩ := Nat.dvd_of_mod_eq_zero h
    have hpos : 0 < d * 2 ^ e.toNat := Nat.mul_pos hd (by positivity)
    rw [hc, Nat.mul_div_cancel_left c hpos, eq_div_iff hd0]
    push_cast
    ring
  · simp only [if_neg he] at h
    obtain ⟨c, hc⟩ := Nat.dvd_of_mod_eq_zero h
    have h2 : ((2 ^ (-e).toNat : Nat) : ℚ) ≠ 0 := by positivity
    have hc' : (n : ℚ) * ((2 ^ (-e).toNat : Nat) : ℚ) = (d : ℚ) * (c : ℚ) := by
      exact_mod_cast hc
    rw [hc, Nat.mul_div_cancel_left c hd, div_eq_div_iff h2 hd0]
    linarith

theorem abs_eq_natAbs_div_den (q : ℚ) : |q| = (q.num.natAbs : ℚ) / q.den := by
  conv_lhs => rw [← Rat.num_div_den q]
  rw [abs_div, Nat.cast_natAbs, Nat.abs_cast, Int.cast_abs]

theorem roundTo_of_isValueOf (fmt : Format) (v : FP) (h : isValueOf fmt v) :
    roundTo fmt v = v := by
  cases v with
  | nan => rfl
  | inf negative => rfl
  | finite q =>
    by_cases hq : q = 0
    · simp [roundTo, hq]
    · rcases h with h | ⟨hmod, hlt⟩
      · exact absurd h hq
      · have hden : 0 < q.den := q.den_pos
        have hfrac : 0 < (scaledFraction q.num.natAbs q.den
            (ulpExponent fmt q.num.natAbs q.den)).2 := by
          unfold scaledFraction
          split_ifs
          · exact Nat.mul_pos hden (by positivity)
          · exact hden
        have hmag : roundMagnitude fmt q.num.natAbs q.den = some |q| := by
          unfold roundMagnitude
          simp only [roundHalfEven_of_dvd _ _ hfrac hmod,
            scale2_scaledFraction _ _ _ hden hmod, ← abs_eq_natAbs_div_den]
          rw [if_neg (not_le.mpr hlt)]
        simp only [roundTo, hq, if_false, hmag]
        by_cases hneg : q < 0
        · simp [hneg, abs_of_neg hneg]
        · simp [hneg, abs_of_nonneg (not_lt.mp hneg)]

theorem roundTo_neg (fmt : Format) (v : FP) : roundTo fmt (-v) = -(roundTo fmt v) := by
  cases v with
  | nan => rfl
  | inf negative => rfl
  | finite q =>
    by_cases hq : q = 0
    · simp [roundTo, hq]
    · have hq' : -q ≠ 0 := neg_ne_zero.mpr hq
      simp only [FP.neg_finite, roundTo, hq, hq', if_false, Rat.neg_num, Int.natAbs_neg,
        Rat.neg_den]
      cases roundMagnitude fmt q.num.natAbs q.den with
      | none =>
        by_cases hneg : q < 0
        · have : ¬ (-q < 0) := by linarith
          simp [hneg, this]
        · have : -q < 0 := by
            rcases lt_or_gt_of_ne hq with h | h
            · exact absurd h hneg
            · linarith
          simp [hneg, this]
      | some r =>
        by_cases hneg : q < 0
        · have : ¬ (-q < 0) := by linarith
          simp [hneg, this]
        · have : -q < 0 := by
            rcases lt_or_gt_of_ne hq with h | h
            · exact absurd h hneg
            · linarith
          simp [hneg, this]

theorem isValueOf_neg (fmt : Format) (v : FP) (h : isValueOf fmt v) : isValueOf fmt (-v) := by
  cases v with
  | nan => trivial
  | inf negative => trivial
  | finite q =>
    rcases h with h | ⟨hmod, hlt⟩
    · left
      simp [h]
    · right
      simp only [Rat.neg_num, Int.natAbs_neg, Rat.neg_den, abs_neg]
      exact ⟨hmod, hlt⟩

theorem scaledFraction_dvd_of_le (n d : Nat) (e e' : Int) (hle : e' ≤ e)
    (h : (scaledFraction n d e).1 % (scaledFraction n d e).2 = 0) :
    (scaledFraction n d e').1 % (scaledFraction n d e').2 = 0 := by
  have hdvd := Nat.dvd_of_mod_eq_zero h
  apply Nat.mod_eq_zero_of_dvd
  unfold scaledFraction at hdvd ⊢
  by_cases he : 0 ≤ e
  · simp only [if_pos he] at hdvd
    obtain ⟨c, hc⟩ := hdvd
    by_cases he' : 0 ≤ e'
    · simp only [if_pos he']
      have hpow : (2 : Nat) ^ e.toNat = 2 ^ e'.toNat * 2 ^ (e.toNat - e'.toNat) := by
        rw [← pow_add]
        congr 1
        omega
      refine ⟨2 ^ (e.toNat - e'.toNat) * c, ?_⟩
      rw [hc, hpow]
      ring
    · simp only [if_neg he']
      refine ⟨2 ^ e.toNat * c * 2 ^ (-e').toNat, ?_⟩
      rw [hc]
      ring
  · have he' : ¬ 0 ≤ e' := by omega
    simp only [if_neg he] at hdvd
    simp only [if_neg he']
    obtain ⟨c, hc⟩ := hdvd
    have hpow : (2 : Nat) ^ (-e').toNat = 2 ^ (-e).toNat * 2 ^ ((-e').toNat - (-e).toNat) := by
      rw [← pow_add]
      congr 1
      omega
    refine ⟨c * 2 ^ ((-e').toNat - (-e).toNat), ?_⟩
    rw [hpow, ← mul_assoc, hc]
    ring

theorem isValueOf_binary64_of_binary32 (v : FP) (h : isValueOf binary32 v) :
    isValueOf binary64 v := by
  cases v with
  | nan => trivial
  | inf negative => trivial
  | finite q =>
    rcases h with h | ⟨hmod, hlt⟩
    · exact Or.inl h
    · refine Or.inr ⟨scaledFraction_dvd_of_le _ _ _ _ ?_ hmod, lt_trans hlt (by decide!)⟩
      simp only [ulpExponent, binary32, binary64]
      omega

theorem Point.isROS_of_isPCL (p : Point) (h : p.IsPCL) : p.IsROS :=
  ⟨isValueOf_binary64_of_binary32 _ h.1, isValueOf_binary64_of_binary32 _ h.2.1,
    isValueOf_binary64_of_binary32 _ h.2.2⟩

theorem roundTo_examples :
    roundFloat 16777217 = 16777216 ∧
    roundFloat 16777219 = 16777220 ∧
    roundFloat 0.1 = FP.finite (13421773 / 134217728) ∧
    roundFloat 1e39 = FP.inf false ∧
    roundFloat (FP.finite (1 / 2 ^ 150)) = 0 ∧
    roundFloat (FP.finite (3 / 2 ^ 150)) = FP.finite (1 / 2 ^ 148) ∧
    roundFloat (FP.finite (2 ^ 128 - 2 ^ 103)) = FP.inf false ∧
    roundFloat (FP.finite (2 ^ 128 - 2 ^ 103 - 1)) = FP.finite (2 ^ 128 - 2 ^ 104) ∧
    roundDouble 9007199254740993 = 9007199254740992 ∧
    roundDouble 0.1 = FP.finite (3602879701896397 / 36028797018963968) ∧
    roundDouble (roundDouble 0.1 + roundDouble 0.2) =
      FP.finite (1351079888211149 / 4503599627370496) := by
  decide!

theorem roundFloat_of_isValueOf (v : FP) (h : isValueOf binary32 v) : roundFloat v = v :=
  roundTo_of_isValueOf binary32 v h

theorem roundFloat_neg (v : FP) : roundFloat (-v) = -(roundFloat v) :=
  roundTo_neg binary32 v

theorem transformROSPointToPCLPoint_transformPCLPointToROSPoint (p : Point) (hp : p.IsPCL) :
    transformROSPointToPCLPoint (transformPCLPointToROSPoint p) = p := by
  obtain ⟨hx, hy, hz⟩ := hp
  cases p
  simp only [transformROSPointToPCLPoint, transformPCLPointToROSPoint, FP.mul_neg_one,
    FP.neg_neg]
  rw [roundFloat_of_isValueOf _ hx, roundFloat_of_isValueOf _ hy, roundFloat_of_isValueOf _ hz]

theorem transformPCLPointToROSPoint_eq (p : Point) :
    transformPCLPointToROSPoint p = Spec.toDisplay p := by
  simp [transformPCLPointToROSPoint, Spec.toDisplay]

theorem stepsLoopBody_eq (marker : Marker) (plane : Plane) :
    stepsLoopBody marker plane =
      Except.ok { marker with
        points := marker.points ++ Spec.outlineEdges (Spec.displayCorners plane) } := by
  simp [stepsLoopBody, vectorAt, buildStepFromAABB, pushBack, pushOutline, Plane.getMin,
    Plane.getMax, Spec.outlineEdges, Spec.displayCorners, Spec.cornersOf, Spec.Corners.map,
    transformPCLPointToROSPoint_eq, bind, Except.bind, pure, Except.pure]

theorem stepsLoop_eq (planes : List Plane) (marker : Marker) :
    planes.foldlM stepsLoopBody marker =
      Except.ok { marker with points := marker.points ++ Spec.buildStepOutlines planes } := by
  induction planes generalizing marker with
  | nil => simp [Spec.buildStepOutlines, pure, Except.pure]
  | cons plane planes ih =>
    simp [List.foldlM, stepsLoopBody_eq, ih, Spec.buildStepOutlines, bind, Except.bind]

theorem risersLoopBody_eq (steps : List Plane) (i : Nat) (marker : Marker) (lower upper : Plane)
    (hl : steps[i - 1]? = some lower) (hu : steps[i]? = some upper) :
    risersLoopBody steps i marker =
      Except.ok { marker with
        points := marker.points ++
          Spec.riserEdges (Spec.displayCorners lower) (Spec.displayCorners upper) } := by
  simp [risersLoopBody, vectorAt, hl, hu, buildStepFromAABB, pushBack, Plane.getMin,
    Plane.getMax, Spec.riserEdges, Spec.displayCorners, Spec.cornersOf, Spec.Corners.map,
    transformPCLPointToROSPoint_eq, bind, Except.bind, pure, Except.pure]

theorem risersLoop_eq (steps : List Plane) (k i : Nat) (marker : Marker)
    (hk : steps.length - i = k) (hi : 1 ≤ i) :
    risersLoop steps i marker =
      Except.ok { marker with
        points := marker.points ++
          (List.zipWith
            (fun lower upper =>
              Spec.riserEdges (Spec.displayCorners lower) (Spec.displayCorners upper))
            (steps.drop (i - 1)) (steps.drop i)).flatten } := by
  induction k generalizing i marker with
  | zero =>
    have hlen : steps.length ≤ i := by omega
    rw [risersLoop, if_neg (by omega), List.drop_eq_nil_of_le hlen]
    simp
  | succ k ih =>
    have hlt : i < steps.length := by omega
    have hlt1 : i - 1 < steps.length := by omega
    rw [risersLoop, if_pos hlt,
      risersLoopBody_eq steps i marker steps[i - 1] steps[i]
        (List.getElem?_eq_getElem hlt1) (List.getElem?_eq_getElem hlt)]
    simp only
    rw [ih (i + 1) _ (by omega) (by omega)]
    have h1 : steps.drop (i - 1) = steps[i - 1] :: steps.drop i := by
      have := List.drop_eq_getElem_cons hlt1
      rw [this]
      congr 2
      omega
    have h2 : steps.drop i = steps[i] :: steps.drop (i + 1) := List.drop_eq_getElem_cons hlt
    rw [h1]
    conv_rhs => rw [h2]
    simp [List.zipWith]

theorem buildRosMarkerSteps_eq (ctx : ROSContext) (now : Nat) (marker : Marker)
    (planes : List Plane) (color : Color3) :
    Except.map Marker.points (buildRosMarkerSteps ctx now marker planes color) =
      Except.ok (marker.points ++ Spec.buildStepOutlines planes) := by
  simp [buildRosMarkerSteps, stepsLoop_eq, Except.map]

theorem buildROSMarkerStairs_eq (ctx : ROSContext) (now : Nat) (marker : Marker)
    (stairway : Stairway) (color : Color3) :
    Except.map Marker.points (buildROSMarkerStairs ctx now marker stairway color) =
      Except.ok (marker.points ++ Spec.buildStaircaseWireframe stairway.steps) := by
  simp only [buildROSMarkerStairs, buildRosMarkerSteps, stepsLoop_eq, Stairway.getSteps, bind,
    Except.bind]
  split
  · rw [risersLoop_eq stairway.steps _ 1 _ rfl (le_refl 1)]
    simp [Except.map, Spec.buildStaircaseWireframe, Spec.riserPoints]
  · rename_i h
    have : stairway.steps = [] := by
      cases hs : stairway.steps with
      | nil => rfl
      | cons a l => simp [hs] at h
    simp [this, Except.map, Spec.buildStaircaseWireframe, Spec.riserPoints,
      Spec.buildStepOutlines, pure, Except.pure]

theorem buildStepOutlines_length (slabs : List Plane) :
    (Spec.buildStepOutlines slabs).length = 8 * slabs.length := by
  induction slabs with
  | nil => rfl
  | cons slab slabs ih =>
    have hcons : Spec.buildStepOutlines (slab :: slabs) =
        Spec.outlineEdges (Spec.displayCorners slab) ++ Spec.buildStepOutlines slabs := rfl
    have hlen : (Spec.outlineEdges (Spec.displayCorners slab)).length = 8 := rfl
    rw [hcons, List.length_append, ih, hlen, List.length_cons]
    omega

theorem riserPoints_length (slabs : List Plane) :
    (Spec.riserPoints slabs).length = 4 * (slabs.length - 1) := by
  induction slabs with
  | nil => rfl
  | cons lower slabs ih =>
    cases slabs with
    | nil => rfl
    | cons upper slabs =>
      have hcons : Spec.riserPoints (lower :: upper :: slabs) =
          Spec.riserEdges (Spec.displayCorners lower) (Spec.displayCorners upper) ++
            Spec.riserPoints (upper :: slabs) := rfl
      have hlen : (Spec.riserEdges (Spec.displayCorners lower)
          (Spec.displayCorners upper)).length = 4 := rfl
      rw [hcons, List.length_append, ih, hlen]
      simp only [List.length_cons]
      omega

theorem map_length_of_map_points (result : Except String Marker) (points : List Point)
    (h : Except.map Marker.points result = Except.ok points) :
    Except.map (fun marker => marker.points.length) result = Except.ok points.length := by
  cases result with
  | error e => simp [Except.map] at h
  | ok marker =>
    simp only [Except.map, Except.ok.injEq] at h ⊢
    rw [h]

theorem buildRosMarkerSteps_ok (ctx : ROSContext) (now : Nat) (marker : Marker)
    (planes : List Plane) (color : Color3) :
    ∃ built : Marker, buildRosMarkerSteps ctx now marker planes color = Except.ok built ∧
      built.id = 0 ∧ built.color = ⟨color.c0, color.c1, color.c2, 1⟩ ∧
      built.points = marker.points ++ Spec.buildStepOutlines planes := by
  simp [buildRosMarkerSteps, stepsLoop_eq]

theorem buildROSMarkerStairs_ok (ctx : ROSContext) (now : Nat) (marker : Marker)
    (stairway : Stairway) (color : Color3) :
    ∃ built : Marker, buildROSMarkerStairs ctx now marker stairway color = Except.ok built ∧
      built.id = 0 ∧ built.color = ⟨color.c0, color.c1, color.c2, 1⟩ ∧
      built.points = marker.points ++ Spec.buildStaircaseWireframe stairway.steps ∧
      built.ns = ctx.m_namespaceSetting := by
  simp only [buildROSMarkerStairs, buildRosMarkerSteps, stepsLoop_eq, Stairway.getSteps, bind,
    Except.bind]
  split
  · rw [risersLoop_eq stairway.steps _ 1 _ rfl (le_refl 1)]
    simp [Spec.buildStaircaseWireframe, Spec.riserPoints]
  · rename_i h
    have : stairway.steps = [] := by
      cases hs : stairway.steps with
      | nil => rfl
      | cons a l => simp [hs] at h
    simp [this, Spec.buildStaircaseWireframe, Spec.riserPoints, Spec.buildStepOutlines, pure,
      Except.pure]

theorem publishStairsLoop_ok (ctx : ROSContext) (now : Nat) (stairway : List Stairway)
    (markerArray : MarkerArray) :
    ∃ built : List Marker,
      stairway.foldlM (publishStairsLoopBody ctx now) markerArray =
        Except.ok ⟨markerArray.markers ++ built⟩ ∧
      built.length = stairway.length ∧
      ∀ marker ∈ built, marker.id = 0 ∧ marker.color = ⟨0, 1, 0, 1⟩ ∧
        marker.ns = ctx.m_namespaceSetting := by
  induction stairway generalizing markerArray with
  | nil => exact ⟨[], by simp [pure, Except.pure], rfl, by simp⟩
  | cons it stairway ih =>
    obtain ⟨marker, hm, hid, hcolor, -, hns⟩ :=
      buildROSMarkerStairs_ok ctx now Marker.empty it ⟨0, 1, 0⟩
    obtain ⟨rest, hrest, hlen, hall⟩ := ih ⟨markerArray.markers ++ [marker]⟩
    refine ⟨marker :: rest, ?_, by simp [hlen], ?_⟩
    · simp [List.foldlM, publishStairsLoopBody, hm, pushBack, hrest, bind, Except.bind, pure,
        Except.pure]
    · intro m hmem
      rcases List.mem_cons.mp hmem with h | h
      · subst h
        exact ⟨hid, hcolor, hns⟩
      · exact hall m h

/-! ## Theorems -/

/-- C1: converting a point from sensor to display convention and back returns the point:
`transformROSPointToPCLPoint (transformPCLPointToROSPoint p) = p` for every `p` that
`transformPCLPointToROSPoint` can be given, a `pcl::PointXYZ`. -/
theorem toSensor_toDisplay (p : Point) (hp : p.IsPCL) :
    transformROSPointToPCLPoint (transformPCLPointToROSPoint p) = p :=
  transformROSPointToPCLPoint_transformPCLPointToROSPoint p hp

/-- C1, at the `pcl::PointXYZ` `(0.5, -2, 16777216)`. -/
theorem toSensor_toDisplay_witness :
    (⟨0.5, -2, 16777216⟩ : Point).IsPCL ∧
    transformROSPointToPCLPoint (transformPCLPointToROSPoint ⟨0.5, -2, 16777216⟩) =
      ⟨0.5, -2, 16777216⟩ :=
  ⟨by decide!, toSensor_toDisplay ⟨0.5, -2, 16777216⟩ (by decide!)⟩

/-- C2, as stated, fails: the `geometry_msgs::Point` `(16777217, 2, 3)` comes back as
`(16777216, 2, 3)`, because `transformROSPointToPCLPoint` stores its `x` in a `float`. -/
theorem toDisplay_toSensor_not_exact :
    (⟨16777217, 2, 3⟩ : Point).IsROS ∧
    transformPCLPointToROSPoint (transformROSPointToPCLPoint ⟨16777217, 2, 3⟩) =
      ⟨16777216, 2, 3⟩ ∧
    transformPCLPointToROSPoint (transformROSPointToPCLPoint ⟨16777217, 2, 3⟩) ≠
      ⟨16777217, 2, 3⟩ := by
  decide!

/-- C2, amended: converting a point from display to sensor convention and back returns the
point with each coordinate rounded to `float`; it returns exactly `p` when the coordinates
of `p` are `float` values, as they are for every `p` that `transformPCLPointToROSPoint`
produces from a `pcl::PointXYZ`. -/
theorem toDisplay_toSensor (p : Point) :
    transformPCLPointToROSPoint (transformROSPointToPCLPoint p) =
        ⟨roundFloat p.x, roundFloat p.y, roundFloat p.z⟩ ∧
    (p.IsPCL → transformPCLPointToROSPoint (transformROSPointToPCLPoint p) = p) ∧
    ∀ q : Point, q.IsPCL →
      transformPCLPointToROSPoint
          (transformROSPointToPCLPoint (transformPCLPointToROSPoint q)) =
        transformPCLPointToROSPoint q := by
  have hround : ∀ r : Point,
      transformPCLPointToROSPoint (transformROSPointToPCLPoint r) =
        ⟨roundFloat r.x, roundFloat r.y, roundFloat r.z⟩ := by
    intro r
    simp only [transformROSPointToPCLPoint, transformPCLPointToROSPoint, FP.mul_neg_one,
      roundFloat_neg, FP.neg_neg]
  have hexact : ∀ r : Point, r.IsPCL →
      transformPCLPointToROSPoint (transformROSPointToPCLPoint r) = r := by
    rintro ⟨x, y, z⟩ ⟨hx, hy, hz⟩
    rw [hround]
    simp only [Point.mk.injEq]
    exact ⟨roundFloat_of_isValueOf _ hx, roundFloat_of_isValueOf _ hy,
      roundFloat_of_isValueOf _ hz⟩
  refine ⟨hround p, hexact p, fun q hq => hexact _ ?_⟩
  obtain ⟨hx, hy, hz⟩ := hq
  simp only [transformPCLPointToROSPoint, FP.mul_neg_one]
  exact ⟨hz, isValueOf_neg _ _ hx, isValueOf_neg _ _ hy⟩

/-- C2, amended, at the display point `(3, -0.5, 16777216)`, whose coordinates are `float`
values: it comes back unchanged. -/
theorem toDisplay_toSensor_witness :
    (⟨3, -0.5, 16777216⟩ : Point).IsPCL ∧
    transformPCLPointToROSPoint (transformROSPointToPCLPoint ⟨3, -0.5, 16777216⟩) =
      ⟨3, -0.5, 16777216⟩ :=
  ⟨by decide!, (toDisplay_toSensor ⟨3, -0.5, 16777216⟩).2.1 (by decide!)⟩

/-- C3: on an empty vector `buildStepFromAABB` yields exactly the four corners
`min`, `(min.x, max.y, min.z)`, `max`, `(max.x, min.y, max.z)` in that order, and for
`min = (0,0,0)`, `max = (2,1,3)` these are `(0,0,0)`, `(0,1,0)`, `(2,1,3)`, `(2,0,3)`. -/
theorem buildStepFromAABB_empty :
    (∀ min max : Point,
      buildStepFromAABB ⟨min, max⟩ [] =
        [min, ⟨min.x, max.y, min.z⟩, max, ⟨max.x, min.y, max.z⟩]) ∧
    buildStepFromAABB ⟨⟨0, 0, 0⟩, ⟨2, 1, 3⟩⟩ [] =
      [⟨0, 0, 0⟩, ⟨0, 1, 0⟩, ⟨2, 1, 3⟩, ⟨2, 0, 3⟩] := by
  refine ⟨fun min max => ?_, ?_⟩ <;>
    simp [buildStepFromAABB, pushBack, Plane.getMin, Plane.getMax]

/-- C4: for a staircase of `N ≥ 1` slabs, the point list that `buildROSMarkerStairs` appends
to an empty marker has exactly `8N + 4(N-1)` points (the call returns normally). -/
theorem buildROSMarkerStairs_point_count (ctx : ROSContext) (now : Nat) (stairway : Stairway)
    (color : Color3) (hN : 1 ≤ stairway.steps.length) :
    Except.map (fun marker => (marker.points.length : ℤ))
        (buildROSMarkerStairs ctx now Marker.empty stairway color) =
      Except.ok (8 * (stairway.steps.length : ℤ) + 4 * ((stairway.steps.length : ℤ) - 1)) := by
  have h := buildROSMarkerStairs_eq ctx now Marker.empty stairway color
  cases hr : buildROSMarkerStairs ctx now Marker.empty stairway color with
  | error e => simp [hr, Except.map] at h
  | ok marker =>
    simp only [hr, Except.map, Except.ok.injEq] at h ⊢
    rw [h]
    simp only [Marker.empty, List.nil_append, Spec.buildStaircaseWireframe, List.length_append,
      buildStepOutlines_length, riserPoints_length]
    omega

/-- C4, at the two-slab staircase `(0,0,0)-(1,1,1)`, `(0,0,1)-(1,1,2)`: 20 points. -/
theorem buildROSMarkerStairs_point_count_witness :
    1 ≤ twoSlabStairway.steps.length ∧
    Except.map (fun marker => (marker.points.length : ℤ))
        (buildROSMarkerStairs sampleContext 0 Marker.empty twoSlabStairway stairsColor) =
      Except.ok 20 :=
  ⟨by decide,
    (buildROSMarkerStairs_point_count sampleContext 0 twoSlabStairway stairsColor
      (by decide)).trans (by norm_num [twoSlabStairway])⟩

/-- C5: the point list built by `buildROSMarkerStairs` on an empty marker is the outline
edges of every slab in sequence order, followed by the riser points `uc1, lc2, uc4, lc3` of
every adjacent pair (lower `s_(i-1)`, upper `s_i`) for `i = 1 .. N-1` in increasing
order, all corners display-converted. -/
theorem buildROSMarkerStairs_points (ctx : ROSContext) (now : Nat) (stairway : Stairway)
    (color : Color3) :
    Except.map Marker.points (buildROSMarkerStairs ctx now Marker.empty stairway color) =
      Except.ok (Spec.buildStaircaseWireframe stairway.steps) := by
  simpa [Marker.empty] using buildROSMarkerStairs_eq ctx now Marker.empty stairway color

/-- C6: the point list built by `buildRosMarkerSteps` on an empty marker is the
concatenation, in input order, of one block `p1,p2, p2,p3, p3,p4, p4,p1` per slab, where
`p1..p4` are the four corners from `buildStepFromAABB` mapped through
`transformPCLPointToROSPoint`; every block is a closed loop. -/
theorem buildRosMarkerSteps_points (ctx : ROSContext) (now : Nat) (planes : List Plane)
    (color : Color3) :
    Except.map Marker.points (buildRosMarkerSteps ctx now Marker.empty planes color) =
        Except.ok
          (planes.map (fun plane => Spec.outlineEdges (Spec.displayCorners plane))).flatten ∧
    (∀ plane : Plane,
      (buildStepFromAABB plane []).map transformPCLPointToROSPoint =
        (Spec.displayCorners plane).toList) ∧
    (∀ plane : Plane, Spec.closedLoop (Spec.outlineEdges (Spec.displayCorners plane))) := by
  refine ⟨?_, fun plane => ?_, fun plane => ?_⟩
  · simpa [Marker.empty, Spec.buildStepOutlines] using
      buildRosMarkerSteps_eq ctx now Marker.empty planes color
  · simp [buildStepFromAABB, pushBack, Plane.getMin, Plane.getMax, Spec.displayCorners,
      Spec.cornersOf, Spec.Corners.map, Spec.Corners.toList, transformPCLPointToROSPoint_eq]
  · simp [Spec.closedLoop, Spec.outlineEdges]

/-- C7: for every list of `N` slabs `buildRosMarkerSteps` on an empty marker produces
exactly `8N` points, also when the slabs have zero extent (`min = max`). -/
theorem buildRosMarkerSteps_point_count (ctx : ROSContext) (now : Nat) (color : Color3) :
    (∀ planes : List Plane,
      Except.map (fun marker => marker.points.length)
          (buildRosMarkerSteps ctx now Marker.empty planes color) =
        Except.ok (8 * planes.length)) ∧
    (∀ (p : Point) (n : Nat),
      Except.map (fun marker => marker.points.length)
          (buildRosMarkerSteps ctx now Marker.empty (List.replicate n ⟨p, p⟩) color) =
        Except.ok (8 * n)) := by
  have key : ∀ planes : List Plane,
      Except.map (fun marker => marker.points.length)
          (buildRosMarkerSteps ctx now Marker.empty planes color) =
        Except.ok (8 * planes.length) := by
    intro planes
    have h := map_length_of_map_points _ _
      (buildRosMarkerSteps_eq ctx now Marker.empty planes color)
    simpa [Marker.empty, buildStepOutlines_length] using h
  refine ⟨key, fun p n => ?_⟩
  simpa using key (List.replicate n ⟨p, p⟩)

/-- C8, as stated, fails: for the slab `(0,0,0)-(2,1,3)` the corners that
`buildRosMarkerSteps` emits are `(0,0,0), (0,0,-1), (3,-2,-1), (3,-2,0)`, while `cornersOf`
of the display-converted box gives `(0,0,0), (0,-2,0), (3,-2,-1), (3,0,-1)`. -/
theorem buildRosMarkerSteps_corners_not_of_display_box :
    Except.map Marker.points
        (buildRosMarkerSteps sampleContext 0 Marker.empty [⟨⟨0, 0, 0⟩, ⟨2, 1, 3⟩⟩] stepsColor) =
      Except.ok (Spec.outlineEdges ⟨⟨0, 0, 0⟩, ⟨0, 0, -1⟩, ⟨3, -2, -1⟩, ⟨3, -2, 0⟩⟩) ∧
    Spec.cornersOf
        ⟨transformPCLPointToROSPoint ⟨0, 0, 0⟩, transformPCLPointToROSPoint ⟨2, 1, 3⟩⟩ =
      ⟨⟨0, 0, 0⟩, ⟨0, -2, 0⟩, ⟨3, -2, -1⟩, ⟨3, 0, -1⟩⟩ ∧
    Except.map Marker.points
        (buildRosMarkerSteps sampleContext 0 Marker.empty [⟨⟨0, 0, 0⟩, ⟨2, 1, 3⟩⟩] stepsColor) ≠
      Except.ok (Spec.outlineEdges (Spec.cornersOf
        ⟨transformPCLPointToROSPoint ⟨0, 0, 0⟩, transformPCLPointToROSPoint ⟨2, 1, 3⟩⟩)) := by
  have h := buildRosMarkerSteps_eq sampleContext 0 Marker.empty [⟨⟨0, 0, 0⟩, ⟨2, 1, 3⟩⟩]
    stepsColor
  refine ⟨?_, ?_, ?_⟩
  · rw [h]
    simp [Marker.empty, Spec.buildStepOutlines, Spec.outlineEdges, Spec.displayCorners,
      Spec.cornersOf, Spec.Corners.map, Spec.toDisplay, FP.ofNat_eq]
  · simp [Spec.cornersOf, transformPCLPointToROSPoint, FP.ofNat_eq]
  · rw [h]
    simp [Marker.empty, Spec.buildStepOutlines, Spec.outlineEdges, Spec.displayCorners,
      Spec.cornersOf, Spec.Corners.map, Spec.toDisplay, transformPCLPointToROSPoint,
      FP.ofNat_eq]

/-- C8, amended: the outline builder derives the corners from the sensor-convention box
and converts each corner afterwards: the emitted corners of a slab are `cornersOf (slab)`
mapped through `transformPCLPointToROSPoint`, that is, with `D` the conversion,
`[D min, ((D min).x, (D min).y, (D max).z), D max, ((D max).x, (D max).y, (D min).z)]`. -/
theorem buildRosMarkerSteps_corners_converted_after (ctx : ROSContext) (now : Nat)
    (planes : List Plane) (color : Color3) :
    Except.map Marker.points (buildRosMarkerSteps ctx now Marker.empty planes color) =
        Except.ok
          (planes.map (fun slab => Spec.outlineEdges
            ((Spec.cornersOf slab).map transformPCLPointToROSPoint))).flatten ∧
    (∀ slab : Plane,
      (Spec.cornersOf slab).map transformPCLPointToROSPoint =
        ⟨transformPCLPointToROSPoint slab.min,
          ⟨(transformPCLPointToROSPoint slab.min).x, (transformPCLPointToROSPoint slab.min).y,
            (transformPCLPointToROSPoint slab.max).z⟩,
          transformPCLPointToROSPoint slab.max,
          ⟨(transformPCLPointToROSPoint slab.max).x, (transformPCLPointToROSPoint slab.max).y,
            (transformPCLPointToROSPoint slab.min).z⟩⟩) := by
  refine ⟨?_, fun slab => ?_⟩
  · have hD : transformPCLPointToROSPoint = Spec.toDisplay :=
      funext transformPCLPointToROSPoint_eq
    rw [hD]
    simpa [Marker.empty, Spec.buildStepOutlines, Spec.displayCorners] using
      buildRosMarkerSteps_eq ctx now Marker.empty planes color
  · simp [Spec.cornersOf, Spec.Corners.map, transformPCLPointToROSPoint]

/-- C9, as stated, fails: for the `geometry_msgs::Point` `(16777217, 2, -3)`,
`transformROSPointToPCLPoint` yields `(-2, 3, 16777216)`, not `(-y, -z, x)`, and for
`(1e39, 0, 0)` it yields an infinite `z`. -/
theorem transformROSPointToPCLPoint_rounds :
    (⟨16777217, 2, -3⟩ : Point).IsROS ∧
    transformROSPointToPCLPoint ⟨16777217, 2, -3⟩ = ⟨-2, 3, 16777216⟩ ∧
    transformROSPointToPCLPoint ⟨16777217, 2, -3⟩ ≠ ⟨-2, -(-3), 16777217⟩ ∧
    (⟨roundDouble 1e39, 0, 0⟩ : Point).IsROS ∧
    transformROSPointToPCLPoint ⟨roundDouble 1e39, 0, 0⟩ = ⟨0, 0, FP.inf false⟩ := by
  decide!

/-- C9, amended: for every point `(x, y, z)`, `transformPCLPointToROSPoint` yields
`(z, -x, -y)`, and `transformROSPointToPCLPoint` yields `(-y, -z, x)` with each coordinate
rounded to `float`, which is `(-y, -z, x)` itself when `x`, `y`, `z` are `float` values. -/
theorem transform_points_formula (x y z : FP) :
    transformPCLPointToROSPoint ⟨x, y, z⟩ = ⟨z, -x, -y⟩ ∧
    transformROSPointToPCLPoint ⟨x, y, z⟩ =
      ⟨roundFloat (-y), roundFloat (-z), roundFloat x⟩ ∧
    ((⟨x, y, z⟩ : Point).IsPCL → transformROSPointToPCLPoint ⟨x, y, z⟩ = ⟨-y, -z, x⟩) := by
  refine ⟨?_, ?_, ?_⟩
  · simp [transformPCLPointToROSPoint]
  · simp [transformROSPointToPCLPoint]
  · rintro ⟨hx, hy, hz⟩
    simp only [transformROSPointToPCLPoint, FP.mul_neg_one, Point.mk.injEq]
    exact ⟨roundFloat_of_isValueOf _ (isValueOf_neg _ _ hy),
      roundFloat_of_isValueOf _ (isValueOf_neg _ _ hz), roundFloat_of_isValueOf _ hx⟩

/-- C9, amended, at the point `(1.5, -2, 16777216)`, whose coordinates are `float` values:
`transformROSPointToPCLPoint` yields `(2, -16777216, 1.5)`. -/
theorem transform_points_formula_witness :
    (⟨1.5, -2, 16777216⟩ : Point).IsPCL ∧
    transformROSPointToPCLPoint ⟨1.5, -2, 16777216⟩ = ⟨-(-2), -16777216, 1.5⟩ :=
  ⟨by decide!, (transform_points_formula 1.5 (-2) 16777216).2.2 (by decide!)⟩

/-- C10, as stated, fails: with the translation `(1, 2, 3)` the point `(2^53, 0, 0)` is
left at `(2^53, 2, 3)`: the sum `2^53 + 1` is not a `double` and rounds to `2^53`. -/
theorem transform_sum_not_exact :
    (⟨9007199254740992, 0, 0⟩ : Point).IsROS ∧
    transform sampleContext.m_th ⟨9007199254740992, 0, 0⟩ "world" "camera" =
      (true, ⟨9007199254740992, 2, 3⟩) ∧
    transform sampleContext.m_th ⟨9007199254740992, 0, 0⟩ "world" "camera" ≠
      (true, ⟨9007199254740992 + 1, 0 + 2, 0 + 3⟩) := by
  decide!

/-- C10, amended: when the lookup buffer is present and the lookup for the frame pair
succeeds with translation `t`, `transform` reports success and leaves each coordinate
equal to the `double` sum of the coordinate and the matching component of `t`: the exact
sum rounded to `double`, which is the exact sum when that sum is a `double` value. -/
theorem transform_success (th : TransformHelper) (tfBuffer : Buffer) (p : Point)
    (target_frame source_frame : String) (ts : TransformStamped)
    (hbuf : th.m_tfBuffer = some tfBuffer)
    (hlookup : tfBuffer.lookupTransform target_frame source_frame = Except.ok ts) :
    transform th p target_frame source_frame =
      (true, ⟨roundDouble (p.x + ts.translation.x), roundDouble (p.y + ts.translation.y),
        roundDouble (p.z + ts.translation.z)⟩) ∧
    ((⟨p.x + ts.translation.x, p.y + ts.translation.y, p.z + ts.translation.z⟩ : Point).IsROS →
      transform th p target_frame source_frame =
        (true, ⟨p.x + ts.translation.x, p.y + ts.translation.y, p.z + ts.translation.z⟩)) := by
  have h : transform th p target_frame source_frame =
      (true, ⟨roundDouble (p.x + ts.translation.x), roundDouble (p.y + ts.translation.y),
        roundDouble (p.z + ts.translation.z)⟩) := by
    simp [transform, hbuf, hlookup]
  refine ⟨h, ?_⟩
  rintro ⟨hx, hy, hz⟩
  rw [h]
  simp only [roundDouble, roundTo_of_isValueOf _ _ hx, roundTo_of_isValueOf _ _ hy,
    roundTo_of_isValueOf _ _ hz]

/-- C10, at the point `(10, 20, 30)` with the buffer of `sampleContext`, which resolves
`("world", "camera")` to the translation `(1, 2, 3)`: success and `(11, 22, 33)`. -/
theorem transform_success_witness :
    sampleContext.m_th.m_tfBuffer = some sampleBuffer ∧
    sampleBuffer.lookupTransform "world" "camera" = Except.ok ⟨⟨1, 2, 3⟩⟩ ∧
    transform sampleContext.m_th ⟨10, 20, 30⟩ "world" "camera" = (true, ⟨11, 22, 33⟩) :=
  ⟨rfl, by simp [sampleBuffer],
    ((transform_success sampleContext.m_th sampleBuffer ⟨10, 20, 30⟩ "world" "camera"
      ⟨⟨1, 2, 3⟩⟩ rfl (by simp [sampleBuffer])).1).trans (by decide!)⟩

/-- C11: `transform` reports failure exactly when the lookup buffer is absent (NULL) or the
lookup for the requested frame pair fails, and whenever it reports failure the point is
left unchanged. -/
theorem transform_failure_iff (th : TransformHelper) (p : Point)
    (target_frame source_frame : String) :
    ((transform th p target_frame source_frame).1 = false ↔
      (th.m_tfBuffer = none ∨
        ∃ (tfBuffer : Buffer) (e : String), th.m_tfBuffer = some tfBuffer ∧
          tfBuffer.lookupTransform target_frame source_frame = Except.error e)) ∧
    ((transform th p target_frame source_frame).1 = false →
      (transform th p target_frame source_frame).2 = p) := by
  unfold transform
  cases hbuf : th.m_tfBuffer with
  | none => simp
  | some tfBuffer =>
    cases hlookup : tfBuffer.lookupTransform target_frame source_frame with
    | error e => simp [hlookup]
    | ok ts => simp [hlookup]

/-- C12, on the code: `transformToWorldCoordinates(Plane&)` always reports success and
stores whatever the two per-point conversions left, each on its own; when the first
conversion fails and the second succeeds with translation `(1, 2, 3)`, the unit slab
`(0,0,0)-(1,1,1)` becomes `(0,0,0)-(2,3,4)`: `min` unconverted, `max` converted. -/
theorem transformToWorldCoordinates_not_atomic :
    (∀ (convertMin convertMax : PointConversion) (plane : Plane),
      transformToWorldCoordinates convertMin convertMax plane =
        (true, ⟨(convertMin plane.min).2, (convertMax plane.max).2⟩)) ∧
    transformToWorldCoordinates conversionFails (conversionShifts ⟨1, 2, 3⟩) unitSlab =
      (true, ⟨⟨0, 0, 0⟩, ⟨2, 3, 4⟩⟩) ∧
    (conversionFails unitSlab.min).1 = false ∧
    (conversionShifts ⟨1, 2, 3⟩ unitSlab.max).1 = true := by
  refine ⟨fun convertMin convertMax plane => rfl, ?_, rfl, rfl⟩
  decide!

/-- C13, on the code: with the publish-stairs flag set `publishStairs` publishes one marker
per staircase of the list, every one with the namespace of the context and id 0; for a list
of two staircases the published array holds two markers with the same namespace and the
same id 0, not a single marker.  `publishSteps` publishes exactly one marker, with id 0,
for every list of slabs. -/
theorem publishStairs_two_markers :
    (∃ first second : Marker,
      publishStairs sampleContext 0 [twoSlabStairway, twoSlabStairway] =
        Except.ok (some ⟨[first, second]⟩) ∧
      first.id = 0 ∧ second.id = 0 ∧ first.ns = second.ns) ∧
    (∀ (ctx : ROSContext) (now : Nat) (stairway : List Stairway),
      ∃ markerArray : MarkerArray,
        publishStairs { ctx with m_publishStairsSetting := true } now stairway =
          Except.ok (some markerArray) ∧
        markerArray.markers.length = stairway.length ∧
        ∀ marker ∈ markerArray.markers,
          marker.id = 0 ∧ marker.ns = ctx.m_namespaceSetting) ∧
    (∀ (ctx : ROSContext) (now : Nat) (planes : List Plane), ∃ marker : Marker,
      publishSteps ctx now planes = Except.ok (some ⟨[marker]⟩) ∧ marker.id = 0) := by
  refine ⟨?_, fun ctx now stairway => ?_, fun ctx now planes => ?_⟩
  · obtain ⟨built, hbuilt, hlen, hall⟩ :=
      publishStairsLoop_ok sampleContext 0 [twoSlabStairway, twoSlabStairway] ⟨[]⟩
    have hpub : publishStairs sampleContext 0 [twoSlabStairway, twoSlabStairway] =
        Except.ok (some ⟨built⟩) := by
      simp [publishStairs, sampleContext, bind, Except.bind, pure, Except.pure] at hbuilt ⊢
      simp [hbuilt]
    obtain ⟨first, second, rfl⟩ := List.length_eq_two.mp hlen
    have h1 := hall first (List.mem_cons_self _ _)
    have h2 := hall second (List.mem_cons_of_mem _ (List.mem_cons_self _ _))
    exact ⟨first, second, hpub, h1.1, h2.1, h1.2.2.trans h2.2.2.symm⟩
  · obtain ⟨built, hbuilt, hlen, hall⟩ :=
      publishStairsLoop_ok { ctx with m_publishStairsSetting := true } now stairway ⟨[]⟩
    refine ⟨⟨built⟩, ?_, hlen, fun marker hm => ⟨(hall marker hm).1, (hall marker hm).2.2⟩⟩
    simp only [List.nil_append] at hbuilt
    simp [publishStairs, hbuilt, bind, Except.bind, pure, Except.pure]
  · obtain ⟨marker, hm, hid, -, -⟩ := buildRosMarkerSteps_ok ctx now Marker.empty planes ⟨0, 0, 1⟩
    exact ⟨marker, by simp [publishSteps, hm, pushBack, bind, Except.bind, pure, Except.pure],
      hid⟩

/-- C14, on the code: `publishStairs` publishes nothing when the publish-stairs flag is
false, whatever the other flag; `publishSteps` does not read the publish-steps flag: it
publishes one marker for every context, and so for `mutedContext`, whose publish-steps
flag is false, and the slab list `[unitSlab]`. -/
theorem publishSteps_not_gated :
    (∀ (ctx : ROSContext) (now : Nat) (stairway : List Stairway),
      publishStairs { ctx with m_publishStairsSetting := false } now stairway =
        Except.ok none) ∧
    (∀ (ctx : ROSContext) (now : Nat) (planes : List Plane), ∃ marker : Marker,
      publishSteps ctx now planes = Except.ok (some ⟨[marker]⟩)) ∧
    mutedContext.m_publishStepsSetting = false ∧
    ∃ marker : Marker, publishSteps mutedContext 0 [unitSlab] = Except.ok (some ⟨[marker]⟩) := by
  have hsteps : ∀ (ctx : ROSContext) (now : Nat) (planes : List Plane), ∃ marker : Marker,
      publishSteps ctx now planes = Except.ok (some ⟨[marker]⟩) := by
    intro ctx now planes
    obtain ⟨marker, hm, -⟩ := buildRosMarkerSteps_ok ctx now Marker.empty planes ⟨0, 0, 1⟩
    exact ⟨marker, by simp [publishSteps, hm, pushBack, bind, Except.bind, pure, Except.pure]⟩
  refine ⟨fun ctx now stairway => ?_, hsteps, rfl, hsteps mutedContext 0 [unitSlab]⟩
  simp [publishStairs, pure, Except.pure]

/-- C15: every marker that `publishStairs` publishes has color `(0, 1, 0, 1)`, every marker
that `publishSteps` publishes has color `(0, 0, 1, 1)`, whatever the geometry, and the two
colors differ. -/
theorem publish_colors (ctx : ROSContext) (now : Nat) :
    (∀ stairway : List Stairway, ∃ markerArray : MarkerArray,
      publishStairs { ctx with m_publishStairsSetting := true } now stairway =
        Except.ok (some markerArray) ∧
      markerArray.markers.length = stairway.length ∧
      ∀ marker ∈ markerArray.markers, marker.color = ⟨0, 1, 0, 1⟩) ∧
    (∀ planes : List Plane, ∃ marker : Marker,
      publishSteps ctx now planes = Except.ok (some ⟨[marker]⟩) ∧
      marker.color = ⟨0, 0, 1, 1⟩) ∧
    (⟨0, 1, 0, 1⟩ : ColorRGBA) ≠ ⟨0, 0, 1, 1⟩ := by
  refine ⟨fun stairway => ?_, fun planes => ?_, by decide⟩
  · obtain ⟨built, hbuilt, hlen, hall⟩ :=
      publishStairsLoop_ok { ctx with m_publishStairsSetting := true } now stairway ⟨[]⟩
    refine ⟨⟨built⟩, ?_, hlen, fun marker hm => (hall marker hm).2.1⟩
    simp only [List.nil_append] at hbuilt
    simp [publishStairs, hbuilt, bind, Except.bind, pure, Except.pure]
  · obtain ⟨marker, hm, -, hcolor, -⟩ :=
      buildRosMarkerSteps_ok ctx now Marker.empty planes ⟨0, 0, 1⟩
    exact ⟨marker, by simp [publishSteps, hm, pushBack, bind, Except.bind, pure, Except.pure],
      hcolor⟩

/-- C16: the sensor-to-display mapping is not an involution: applied twice to the
`pcl::PointXYZ` `(1, 0, 0)` it gives `(0, 0, 1)`; yet `transformROSPointToPCLPoint` inverts
it at every `pcl::PointXYZ`. -/
theorem toDisplay_not_involution :
    (∃ p : Point, p.IsPCL ∧
      transformPCLPointToROSPoint (transformPCLPointToROSPoint p) ≠ p) ∧
    transformPCLPointToROSPoint (transformPCLPointToROSPoint ⟨1, 0, 0⟩) = ⟨0, 0, 1⟩ ∧
    ∀ p : Point, p.IsPCL →
      transformROSPointToPCLPoint (transformPCLPointToROSPoint p) = p := by
  refine ⟨⟨⟨1, 0, 0⟩, by decide!, by decide!⟩, by decide!, fun p hp => ?_⟩
  exact transformROSPointToPCLPoint_transformPCLPointToROSPoint p hp

/-- C16, at the `pcl::PointXYZ` `(1, 0, 0)`: `transformROSPointToPCLPoint` brings its display
form `(0, -1, 0)` back to `(1, 0, 0)`, while a second `transformPCLPointToROSPoint` does
not. -/
theorem toDisplay_not_involution_witness :
    (⟨1, 0, 0⟩ : Point).IsPCL ∧
    transformROSPointToPCLPoint (transformPCLPointToROSPoint ⟨1, 0, 0⟩) = ⟨1, 0, 0⟩ ∧
    transformPCLPointToROSPoint (transformPCLPointToROSPoint ⟨1, 0, 0⟩) ≠ ⟨1, 0, 0⟩ :=
  ⟨by decide!, toDisplay_not_involution.2.2 ⟨1, 0, 0⟩ (by decide!), by decide!⟩

/-- C17: for every sequence `S` of staircases and every prior registry state,
`snapshot` after `replaceAll S` returns exactly `S`: the same length, and at every position
the same staircase. -/
theorem snapshot_replaceAll (registry : StaircaseRegistry) (S : List Stairway) :
    (registry.replaceAll S).snapshot = S ∧
    (registry.replaceAll S).snapshot.length = S.length ∧
    ∀ i : Nat, (registry.replaceAll S).snapshot[i]? = S[i]? :=
  ⟨rfl, rfl, fun _ => rfl⟩

/-- C19: neither marker builder raises an out-of-range error: for every marker, list of
slabs and staircase (the empty one included) both builders return a marker; each of the
accesses `points.at(0..3)` is in range, and so are `getSteps().at(i)` and
`getSteps().at(i - 1)` for every counter `i` the riser loop runs with. -/
theorem builders_never_out_of_range (ctx : ROSContext) (now : Nat) (marker : Marker)
    (color : Color3) :
    (∀ planes : List Plane, ∃ built : Marker,
      buildRosMarkerSteps ctx now marker planes color = Except.ok built) ∧
    (∀ stairway : Stairway, ∃ built : Marker,
      buildROSMarkerStairs ctx now marker stairway color = Except.ok built) ∧
    (∃ built : Marker, buildROSMarkerStairs ctx now marker ⟨[]⟩ color = Except.ok built) ∧
    (∀ (plane : Plane) (k : Fin 4), ∃ point : Point,
      vectorAt (buildStepFromAABB plane []) k = Except.ok point) ∧
    (∀ (steps : List Plane) (i : Nat), 1 ≤ i → i < steps.length →
      (∃ cur : Plane, vectorAt steps i = Except.ok cur) ∧
      ∃ before : Plane, vectorAt steps (i - 1) = Except.ok before) := by
  have hstairs : ∀ stairway : Stairway, ∃ built : Marker,
      buildROSMarkerStairs ctx now marker stairway color = Except.ok built := by
    intro stairway
    obtain ⟨built, h, -⟩ := buildROSMarkerStairs_ok ctx now marker stairway color
    exact ⟨built, h⟩
  refine ⟨fun planes => ?_, hstairs, hstairs ⟨[]⟩, fun plane k => ?_, fun steps i h1 hlt => ?_⟩
  · obtain ⟨built, h, -⟩ := buildRosMarkerSteps_ok ctx now marker planes color
    exact ⟨built, h⟩
  · fin_cases k <;>
      simp [vectorAt, buildStepFromAABB, pushBack, Plane.getMin, Plane.getMax]
  · have hlt1 : i - 1 < steps.length := by omega
    exact ⟨⟨steps[i], by simp [vectorAt, List.getElem?_eq_getElem hlt]⟩,
      ⟨steps[i - 1], by simp [vectorAt, List.getElem?_eq_getElem hlt1]⟩⟩

/-- C20: for every `pcl::PointXYZ`, applying the sensor-to-display mapping twice equals the
display-to-sensor mapping; for every point, the display-to-sensor mapping is the twofold
sensor-to-display mapping stored in `float` coordinates, and applying the sensor-to-display
mapping three times returns the point. -/
theorem toDisplay_twice_eq_toSensor (p : Point) :
    (p.IsPCL →
      transformPCLPointToROSPoint (transformPCLPointToROSPoint p) =
        transformROSPointToPCLPoint p) ∧
    transformROSPointToPCLPoint p =
      ⟨roundFloat (transformPCLPointToROSPoint (transformPCLPointToROSPoint p)).x,
        roundFloat (transformPCLPointToROSPoint (transformPCLPointToROSPoint p)).y,
        roundFloat (transformPCLPointToROSPoint (transformPCLPointToROSPoint p)).z⟩ ∧
    transformPCLPointToROSPoint
      (transformPCLPointToROSPoint (transformPCLPointToROSPoint p)) = p := by
  obtain ⟨x, y, z⟩ := p
  refine ⟨?_, ?_, ?_⟩
  · rintro ⟨hx, hy, hz⟩
    simp only [transformROSPointToPCLPoint, transformPCLPointToROSPoint, FP.mul_neg_one,
      FP.neg_neg, Point.mk.injEq]
    exact ⟨(roundFloat_of_isValueOf _ (isValueOf_neg _ _ hy)).symm,
      (roundFloat_of_isValueOf _ (isValueOf_neg _ _ hz)).symm,
      (roundFloat_of_isValueOf _ hx).symm⟩
  · simp only [transformROSPointToPCLPoint, transformPCLPointToROSPoint, FP.mul_neg_one,
      FP.neg_neg]
  · simp only [transformPCLPointToROSPoint, FP.mul_neg_one, FP.neg_neg]

/-- C20, at the `pcl::PointXYZ` `(0.5, -2, 16777216)`: twice the sensor-to-display mapping
and the display-to-sensor mapping both give `(2, -16777216, 0.5)`. -/
theorem toDisplay_twice_eq_toSensor_witness :
    (⟨0.5, -2, 16777216⟩ : Point).IsPCL ∧
    transformPCLPointToROSPoint (transformPCLPointToROSPoint ⟨0.5, -2, 16777216⟩) =
      transformROSPointToPCLPoint ⟨0.5, -2, 16777216⟩ ∧
    transformROSPointToPCLPoint ⟨0.5, -2, 16777216⟩ = ⟨2, -16777216, 0.5⟩ :=
  ⟨by decide!, (toDisplay_twice_eq_toSensor ⟨0.5, -2, 16777216⟩).1 (by decide!), by decide!⟩

end StairsDetection
